import Mathlib

/-!
Verification development for the centurio browser extension's core logic.

The development shallowly embeds the two source modules:

* `src/entrypoints/shared/theme.ts` — the settings data model and
  `normalizeSettings`;
* `src/entrypoints/popup/App.tsx` — the popup's `setMode` handler and the
  content script's appearance resolver (`resolveScheme`, `shouldInvert`,
  `applyTheme`, `clearTheme`, `ensureStyleElement`, `applyThemeFromSettings`,
  `computePageIsDark`, `getReadableBackground`, `parseColor`,
  `relativeLuminance`).

JavaScript values reaching `normalizeSettings` are modelled by the inductive
`JsValue`; JS objects become association lists of string keys.  The DOM
surface that the inverter touches (two root attributes plus a managed
stylesheet element identified by id) is modelled by the `Dom` record, where
`styleCount` counts the elements carrying the managed id.  Real-valued
luminance computations are modelled over `ℝ`, with `Math.pow (· , 2.4)`
as `Real.rpow`; a JS `NaN` alpha channel (possible via `Number` on a
malformed decimal such as "1.2.3") is modelled as `none`.
-/

/-- `ThemeMode` from `shared/theme.ts`: 'light' | 'dark' | 'system'. -/
inductive ThemeMode where
  | light
  | dark
  | system
  deriving DecidableEq

/-- `ThemeScheme` from the content script: 'light' | 'dark'. -/
inductive ThemeScheme where
  | light
  | dark
  deriving DecidableEq

/-- `ThemeSettings` from `shared/theme.ts`; the `Record<string, ThemeMode>`
is an association list with string keys (JS objects have unique keys). -/
structure ThemeSettings where
  defaultMode : ThemeMode
  siteOverrides : List (String × ThemeMode)
  deriving DecidableEq

/-- `defaultSettings` from `shared/theme.ts`. -/
def defaultSettings : ThemeSettings := ⟨ThemeMode.system, []⟩

/-- A JavaScript value, as far as the settings code can observe one.
Objects are association lists; arrays are kept separate because
`typeof [] === 'object'`, so `isRecord` accepts them. -/
inductive JsValue where
  | undef
  | null
  | boolV (b : Bool)
  | num (q : ℚ)
  | str (s : String)
  | arr (elems : List JsValue)
  | obj (fields : List (String × JsValue))

/-- First-match lookup in an entry list, the read semantics of a JS
property access on an object (JS objects have unique keys). -/
def lookupEntries (l : List (String × JsValue)) (key : String) : Option JsValue :=
  match l with
  | [] => none
  | (k, v) :: rest => if k = key then some v else lookupEntries rest key

/-- `Object.entries`: an object's own enumerable entries; for an array,
the index-keyed entries.  Non-objects have no entries. -/
def entriesOf : JsValue → List (String × JsValue)
  | JsValue.obj fields => fields
  | JsValue.arr elems => elems.enum.map (fun p => (toString p.1, p.2))
  | _ => []

/-- JS property access `v[key]`, `undefined` when absent or not an object.
(Non-enumerable properties such as an array's `length` are omitted; the
source only reads `defaultMode` and `siteOverrides`.) -/
def getProp (v : JsValue) (key : String) : JsValue :=
  match lookupEntries (entriesOf v) key with
  | some w => w
  | none => JsValue.undef

/-- `isRecord` from `shared/theme.ts`:
`typeof value === 'object' && value !== null`. -/
def isRecord : JsValue → Bool
  | JsValue.obj _ => true
  | JsValue.arr _ => true
  | _ => false

/-- The `ThemeMode` denoted by a JS value, when the value is exactly one of
the three mode strings. -/
def toThemeMode : JsValue → Option ThemeMode
  | JsValue.str s =>
    if s = "light" then some ThemeMode.light
    else if s = "dark" then some ThemeMode.dark
    else if s = "system" then some ThemeMode.system
    else none
  | _ => none

/-- `isThemeMode` from `shared/theme.ts`:
`value === 'light' || value === 'dark' || value === 'system'`. -/
def isThemeMode (v : JsValue) : Bool :=
  (toThemeMode v).isSome

/-- The JS string encoding a `ThemeMode`. -/
def modeStr : ThemeMode → String
  | ThemeMode.light => "light"
  | ThemeMode.dark => "dark"
  | ThemeMode.system => "system"

/-- A `ThemeMode` as the JS value storing it. -/
def modeJs (m : ThemeMode) : JsValue :=
  JsValue.str (modeStr m)

/-- JS property assignment `overrides[key] = mode`: overwrite in place when
the key exists, else append (JS objects keep first-insertion key order). -/
def setKey : List (String × ThemeMode) → String → ThemeMode → List (String × ThemeMode)
  | [], key, mode => [(key, mode)]
  | (k, m) :: rest, key, mode =>
    if k = key then (key, mode) :: rest else (k, m) :: setKey rest key mode

/-- Reading `overrides[key]` from the association list. -/
def recGet (l : List (String × ThemeMode)) (key : String) : Option ThemeMode :=
  match l with
  | [] => none
  | (k, m) :: rest => if k = key then some m else recGet rest key

/-- The `for (const [hostname, mode] of Object.entries(...))` loop body of
`normalizeSettings`: keep the entries whose value is a valid mode. -/
def buildOverrides : List (String × JsValue) → List (String × ThemeMode) → List (String × ThemeMode)
  | [], acc => acc
  | (host, v) :: rest, acc =>
    match toThemeMode v with
    | some m => buildOverrides rest (setKey acc host m)
    | none => buildOverrides rest acc

/-- `normalizeSettings` from `shared/theme.ts`. -/
def normalizeSettings (value : JsValue) : ThemeSettings :=
  if isRecord value then
    let defaultMode :=
      match toThemeMode (getProp value "defaultMode") with
      | some m => m
      | none => defaultSettings.defaultMode
    let siteOverrides :=
      if isRecord (getProp value "siteOverrides") then
        buildOverrides (entriesOf (getProp value "siteOverrides")) []
      else []
    ⟨defaultMode, siteOverrides⟩
  else defaultSettings

/-- Re-encoding of a `ThemeSettings` as the JS value that stores it
(the shape `browser.storage.local` hands back to `normalizeSettings`). -/
def toJs (s : ThemeSettings) : JsValue :=
  JsValue.obj
    [("defaultMode", modeJs s.defaultMode),
     ("siteOverrides", JsValue.obj (s.siteOverrides.map (fun p => (p.1, modeJs p.2))))]

/-- The `ThemeSettings` invariant: the default mode and every override value
is a valid theme mode (checked with the source's own `isThemeMode`). -/
def validSettings (s : ThemeSettings) : Bool :=
  isThemeMode (modeJs s.defaultMode) &&
    s.siteOverrides.all (fun p => isThemeMode (modeJs p.2))

/-- The `Rgb` record of the content script.  Channels are naturals: every
construction site in the source (`parseColor`'s digit groups, the white
fallback) produces a non-negative integer.  The alpha channel is `none`
when JS `Number` would produce `NaN` (malformed decimal). -/
structure Rgb where
  r : ℕ
  g : ℕ
  b : ℕ
  a : Option ℚ
  deriving DecidableEq

/-- ASCII whitespace removed by the `replace(/\s+/g, '')` step. -/
def isWsChar (c : Char) : Bool :=
  c == ' ' || c == '\t' || c == '\n' || c == '\r' || c == '\x0b' || c == '\x0c'

/-- The `value.replace(/\s+/g, '')` step of `parseColor`, as a char list. -/
def stripWs (s : String) : List Char :=
  s.toList.filter (fun c => !isWsChar c)

/-- Decimal value of a digit run, the semantics of JS `Number` on `\d+`. -/
def digitsVal (ds : List Char) : ℕ :=
  ds.foldl (fun n c => 10 * n + (c.toNat - Char.toNat '0')) 0

/-- Greedy `(\d+)` group: a non-empty digit run and the rest. -/
def parseNum (cs : List Char) : Option (ℕ × List Char) :=
  let ds := cs.takeWhile Char.isDigit
  if ds.isEmpty then none else some (digitsVal ds, cs.dropWhile Char.isDigit)

/-- One expected literal character. -/
def expectChar (c : Char) (cs : List Char) : Option (List Char) :=
  match cs with
  | x :: rest => if x = c then some rest else none
  | [] => none

/-- The `rgba?` head of the regex, case-insensitive (`/i`). -/
def matchRgbHead (cs : List Char) : Option (List Char) :=
  match cs with
  | c1 :: c2 :: c3 :: rest =>
    if c1.toLower == 'r' && c2.toLower == 'g' && c3.toLower == 'b' then
      match rest with
      | c4 :: rest2 => if c4.toLower == 'a' then some rest2 else some rest
      | [] => some []
    else none
  | _ => none

/-- A character admitted by the `([0-9.]+)` alpha group. -/
def isAlphaValChar (c : Char) : Bool :=
  c.isDigit || c == '.'

/-- JS `Number` on a string of digits and dots: a value when the string is
a decimal literal (at least one digit, at most one dot), else `none`
standing for `NaN`. -/
def alphaVal (cs : List Char) : Option ℚ :=
  if cs.count '.' ≤ 1 && cs.any Char.isDigit then
    let ip := cs.takeWhile Char.isDigit
    let rest := cs.dropWhile Char.isDigit
    match rest with
    | [] => some (digitsVal ip)
    | _ :: frac => some ((digitsVal ip : ℚ) + (digitsVal frac : ℚ) / 10 ^ frac.length)
  else none

/-- `parseColor` from the content script: anchored match of
`rgba?\((\d+),(\d+),(\d+)(?:,([0-9.]+))?\)` (case-insensitive) after
removing whitespace; absent alpha group means alpha 1. -/
def parseColor (value : String) : Option Rgb := do
  let cs0 := stripWs value
  let cs1 ← matchRgbHead cs0
  let cs2 ← expectChar '(' cs1
  let (r, cs3) ← parseNum cs2
  let cs4 ← expectChar ',' cs3
  let (g, cs5) ← parseNum cs4
  let cs6 ← expectChar ',' cs5
  let (b, cs7) ← parseNum cs6
  match cs7 with
  | ')' :: rest => if rest.isEmpty then some ⟨r, g, b, some 1⟩ else none
  | ',' :: rest =>
    let alphaChars := rest.takeWhile isAlphaValChar
    let rest2 := rest.dropWhile isAlphaValChar
    if alphaChars.isEmpty then none
    else
      match rest2 with
      | [')'] => some ⟨r, g, b, alphaVal alphaChars⟩
      | _ => none
  | _ => none

/-- The `color.a > 0.05` test (false on a `NaN` alpha, as in JS). -/
def alphaAbove (c : Rgb) : Bool :=
  match c.a with
  | some q => decide ((0.05 : ℚ) < q)
  | none => false

/-- The white fallback `{ r: 255, g: 255, b: 255, a: 1 }`. -/
def whiteRgb : Rgb := ⟨255, 255, 255, some 1⟩

/-- The root-element half of `getReadableBackground`: the root background
when it parses with alpha above 0.05. -/
def readRootColor (rootBg : String) : Option Rgb :=
  match parseColor rootBg with
  | some rc => if alphaAbove rc then some rc else none
  | none => none

/-- `getReadableBackground` from the content script.  `bodyBg` is the body's
computed background-color string (`none` when `document.body` is null),
`rootBg` the root element's. -/
def getReadableBackground (bodyBg : Option String) (rootBg : String) : Option Rgb :=
  let bodyColor :=
    match bodyBg with
    | some s => parseColor s
    | none => none
  match bodyColor with
  | some c => if alphaAbove c then some c else readRootColor rootBg
  | none => readRootColor rootBg

/-- Modelled from the spec: the background the fallback chain settles on —
the body's color when it parses with alpha above 0.05, else the root's under
the same condition, else assumed white. -/
def specChosenBackground (bodyBg : Option String) (rootBg : String) : Rgb :=
  match bodyBg with
  | some s =>
    match parseColor s with
    | some c =>
      if alphaAbove c then c
      else
        match parseColor rootBg with
        | some rc => if alphaAbove rc then rc else whiteRgb
        | none => whiteRgb
    | none =>
      match parseColor rootBg with
      | some rc => if alphaAbove rc then rc else whiteRgb
      | none => whiteRgb
  | none =>
    match parseColor rootBg with
    | some rc => if alphaAbove rc then rc else whiteRgb
    | none => whiteRgb

/-- The per-channel map of `relativeLuminance`: linearised sRGB (the
source's `normalized` local, `channel / 255`, is inlined). -/
noncomputable def lumChannel (channel : ℕ) : ℝ :=
  if ((channel : ℝ) / 255) ≤ 0.03928 then ((channel : ℝ) / 255) / 12.92
  else (((channel : ℝ) / 255 + 0.055) / 1.055) ^ (2.4 : ℝ)

/-- `relativeLuminance` from the content script. -/
noncomputable def relativeLuminance (c : Rgb) : ℝ :=
  0.2126 * lumChannel c.r + 0.7152 * lumChannel c.g + 0.0722 * lumChannel c.b

/-- `computePageIsDark` from the content script: luminance of the readable
background (white fallback) below 0.5. -/
noncomputable def computePageIsDark (bodyBg : Option String) (rootBg : String) : Bool :=
  let background := (getReadableBackground bodyBg rootBg).getD whiteRgb
  decide (relativeLuminance background < 0.5)

/-- `resolveScheme` from the content script:
`mode === 'system' ? (prefersDark.matches ? 'dark' : 'light') : mode`. -/
def resolveScheme (prefersDarkMatches : Bool) (mode : ThemeMode) : ThemeScheme :=
  match mode with
  | ThemeMode.system => if prefersDarkMatches then ThemeScheme.dark else ThemeScheme.light
  | ThemeMode.light => ThemeScheme.light
  | ThemeMode.dark => ThemeScheme.dark

/-- `shouldInvert` from the content script:
`scheme === 'dark' ? !pageIsDark : pageIsDark`. -/
def shouldInvert (scheme : ThemeScheme) (pageIsDark : Bool) : Bool :=
  match scheme with
  | ThemeScheme.dark => !pageIsDark
  | ThemeScheme.light => pageIsDark

/-- The string an attribute write stores for a scheme. -/
def schemeStr : ThemeScheme → String
  | ThemeScheme.light => "light"
  | ThemeScheme.dark => "dark"

/-- The DOM surface the inverter manages: the two root attributes
(`data-centurio-scheme`, `data-centurio-invert`; `none` = absent) and the
number of elements in the document carrying the managed stylesheet id. -/
structure Dom where
  schemeAttr : Option String
  invertAttr : Option String
  styleCount : ℕ
  deriving DecidableEq

/-- `ensureStyleElement`: `getElementById` finds an element iff the count is
non-zero; otherwise one element is created and appended. -/
def ensureStyleElement (d : Dom) : Dom :=
  if d.styleCount = 0 then ⟨d.schemeAttr, d.invertAttr, 1⟩ else d

/-- `applyTheme` from the content script: ensure the stylesheet, then set
both root attributes. -/
def applyTheme (scheme : ThemeScheme) (invert : Bool) (d : Dom) : Dom :=
  let d1 := ensureStyleElement d
  ⟨some (schemeStr scheme), some (if invert then "true" else "false"), d1.styleCount⟩

/-- `clearTheme` from the content script: remove both attributes and remove
the element `getElementById` finds, when present. -/
def clearTheme (d : Dom) : Dom :=
  ⟨none, none, d.styleCount - 1⟩

/-- The page-side environment a resolution pass reads. -/
structure Env where
  locationHostname : String
  locationHost : String
  prefersDarkMatches : Bool
  bodyBg : Option String
  rootBg : String

/-- The `location.hostname || location.host` computation (a JS `||` on
strings takes the first when non-empty). -/
def effHostname (env : Env) : String :=
  if env.locationHostname = "" then env.locationHost else env.locationHostname

/-- `applyThemeFromSettings` from the content script, as a transformer of
the managed DOM state; `baselineIsDark` is the memoised page-brightness
sample (`baselineIsDark ?? computePageIsDark()`). -/
noncomputable def applyThemeFromSettings (env : Env) (baselineIsDark : Option Bool)
    (settings : ThemeSettings) (d : Dom) : Dom :=
  let hostname := effHostname env
  if hostname = "" then clearTheme d
  else
    match recGet settings.siteOverrides hostname with
    | none => clearTheme d
    | some siteMode =>
      let targetScheme := resolveScheme env.prefersDarkMatches siteMode
      let pageIsDark := baselineIsDark.getD (computePageIsDark env.bodyBg env.rootBg)
      applyTheme targetScheme (shouldInvert targetScheme pageIsDark) d

/-- One DOM-mutating operation of the inverter. -/
inductive DomOp where
  | applyOp (scheme : ThemeScheme) (invert : Bool)
  | clearOp
  deriving DecidableEq

/-- Run one operation. -/
def stepOp : DomOp → Dom → Dom
  | DomOp.applyOp s i, d => applyTheme s i d
  | DomOp.clearOp, d => clearTheme d

/-- Run a sequence of operations left to right. -/
def runOps : List DomOp → Dom → Dom
  | [], d => d
  | op :: rest, d => runOps rest (stepOp op d)

/-- `setMode` from the popup (`App.tsx`): with an active host, write the
mode both as the global default and as that host's override; without one,
only the default. -/
def setMode (settings : ThemeSettings) (activeHost : Option String) (mode : ThemeMode) :
    ThemeSettings :=
  match activeHost with
  | none => ⟨mode, settings.siteOverrides⟩
  | some host => ⟨mode, setKey settings.siteOverrides host mode⟩

/-! ### Luminance lemmas -/

lemma lumChannel_cond (c : ℕ) : ((c : ℝ) / 255 ≤ 0.03928) ↔ c ≤ 10 := by
  rw [div_le_iff₀ (by norm_num : (0:ℝ) < 255)]
  constructor
  · intro h
    by_contra hc
    push_neg at hc
    have h11 : (11 : ℝ) ≤ (c : ℝ) := by exact_mod_cast hc
    nlinarith
  · intro h
    have h10 : (c : ℝ) ≤ 10 := by exact_mod_cast h
    nlinarith

lemma lumChannel_lin {c : ℕ} (h : c ≤ 10) :
    lumChannel c = ((c : ℝ) / 255) / 12.92 :=
  if_pos ((lumChannel_cond c).mpr h)

lemma lumChannel_pow {c : ℕ} (h : 11 ≤ c) :
    lumChannel c = (((c : ℝ) / 255 + 0.055) / 1.055) ^ (2.4 : ℝ) := by
  refine if_neg ?_
  rw [lumChannel_cond]
  omega

lemma lum_lin_le_pow :
    ((10 : ℝ) / 255) / 12.92 ≤ (((11 : ℝ) / 255 + 0.055) / 1.055) ^ (2.4 : ℝ) := by
  set B : ℝ := ((11 : ℝ) / 255 + 0.055) / 1.055 with hB
  have hB0 : (0 : ℝ) ≤ B := by rw [hB]; norm_num
  have hr0 : (0 : ℝ) ≤ B ^ (2.4 : ℝ) := Real.rpow_nonneg hB0 _
  have h5 : (B ^ (2.4 : ℝ)) ^ (5 : ℕ) = B ^ (12 : ℕ) := by
    rw [← Real.rpow_natCast (B ^ (2.4 : ℝ)) 5, ← Real.rpow_mul hB0, ← Real.rpow_natCast B 12]
    norm_num
  have hA0 : (0 : ℝ) ≤ ((10 : ℝ) / 255) / 12.92 := by norm_num
  rw [← pow_le_pow_iff_left₀ hA0 hr0 (by norm_num : (5 : ℕ) ≠ 0), h5, hB]
  norm_num

lemma lumChannel_mono {c1 c2 : ℕ} (h : c1 ≤ c2) : lumChannel c1 ≤ lumChannel c2 := by
  by_cases h1 : c1 ≤ 10 <;> by_cases h2 : c2 ≤ 10
  · rw [lumChannel_lin h1, lumChannel_lin h2]
    have hc : (c1 : ℝ) ≤ (c2 : ℝ) := by exact_mod_cast h
    gcongr
  · rw [lumChannel_lin h1, lumChannel_pow (by omega : 11 ≤ c2)]
    calc ((c1 : ℝ) / 255) / 12.92 ≤ ((10 : ℝ) / 255) / 12.92 := by
          have hc : (c1 : ℝ) ≤ 10 := by exact_mod_cast h1
          gcongr
      _ ≤ (((11 : ℝ) / 255 + 0.055) / 1.055) ^ (2.4 : ℝ) := lum_lin_le_pow
      _ ≤ (((c2 : ℝ) / 255 + 0.055) / 1.055) ^ (2.4 : ℝ) := by
          apply Real.rpow_le_rpow (by norm_num) _ (by norm_num)
          have hc : (11 : ℝ) ≤ (c2 : ℝ) := by exact_mod_cast (by omega : 11 ≤ c2)
          gcongr
  · omega
  · rw [lumChannel_pow (by omega : 11 ≤ c1), lumChannel_pow (by omega : 11 ≤ c2)]
    apply Real.rpow_le_rpow (by positivity) _ (by norm_num)
    have hc : (c1 : ℝ) ≤ (c2 : ℝ) := by exact_mod_cast h
    gcongr

lemma lumChannel_zero : lumChannel 0 = 0 := by
  rw [lumChannel_lin (by norm_num)]
  norm_num

lemma lumChannel_255 : lumChannel 255 = 1 := by
  rw [lumChannel_pow (by norm_num)]
  have h : (((255 : ℕ) : ℝ) / 255 + 0.055) / 1.055 = 1 := by norm_num
  rw [h, Real.one_rpow]

lemma lum_white : relativeLuminance whiteRgb = 1 := by
  unfold relativeLuminance whiteRgb
  rw [lumChannel_255]
  norm_num

lemma lum_black : relativeLuminance ⟨0, 0, 0, some 1⟩ = 0 := by
  unfold relativeLuminance
  rw [lumChannel_zero]
  norm_num

/-! ### Association list lemmas -/

lemma toThemeMode_modeJs (m : ThemeMode) : toThemeMode (modeJs m) = some m := by
  cases m <;> rfl

lemma isThemeMode_modeJs (m : ThemeMode) : isThemeMode (modeJs m) = true := by
  cases m <;> rfl

lemma toThemeMode_eq_some {v : JsValue} {m : ThemeMode} (h : toThemeMode v = some m) :
    v = modeJs m := by
  cases v <;> simp [toThemeMode] at h
  case str s =>
    split_ifs at h with h1 h2 h3
    · subst h1; injection h with h4; subst h4; rfl
    · subst h2; injection h with h4; subst h4; rfl
    · subst h3; injection h with h4; subst h4; rfl

lemma modeJs_inj : Function.Injective modeJs := by
  intro m m' h
  cases m <;> cases m' <;>
    first
    | rfl
    | (injection h with h2; exact absurd h2 (by decide))

lemma recGet_setKey_self (l : List (String × ThemeMode)) (k : String) (m : ThemeMode) :
    recGet (setKey l k m) k = some m := by
  induction l with
  | nil => simp [setKey, recGet]
  | cons p rest ih =>
    obtain ⟨k1, m1⟩ := p
    by_cases h : k1 = k
    · simp [setKey, recGet, h]
    · simp [setKey, recGet, h, ih]

lemma recGet_setKey_ne (l : List (String × ThemeMode)) {k k' : String} (m : ThemeMode)
    (h : k' ≠ k) : recGet (setKey l k m) k' = recGet l k' := by
  induction l with
  | nil => simp [setKey, recGet, Ne.symm h]
  | cons p rest ih =>
    obtain ⟨k1, m1⟩ := p
    by_cases h1 : k1 = k
    · subst h1
      simp [setKey, recGet, Ne.symm h]
    · simp [setKey, recGet, h1, ih]

lemma setKey_absent {l : List (String × ThemeMode)} {k : String} (m : ThemeMode)
    (h : k ∉ l.map Prod.fst) : setKey l k m = l ++ [(k, m)] := by
  induction l with
  | nil => rfl
  | cons p rest ih =>
    obtain ⟨k1, m1⟩ := p
    simp only [List.map_cons, List.mem_cons] at h
    push_neg at h
    simp [setKey, Ne.symm h.1, ih h.2]

lemma keys_setKey (l : List (String × ThemeMode)) (k : String) (m : ThemeMode) :
    (setKey l k m).map Prod.fst =
      if k ∈ l.map Prod.fst then l.map Prod.fst else l.map Prod.fst ++ [k] := by
  induction l with
  | nil => simp [setKey]
  | cons p rest ih =>
    obtain ⟨k1, m1⟩ := p
    by_cases h : k1 = k
    · simp [setKey, h]
    · simp only [setKey, if_neg h, List.map_cons, ih]
      by_cases h2 : k ∈ rest.map Prod.fst
      · simp [h2, Ne.symm h]
      · simp [h2, Ne.symm h]

lemma nodup_keys_setKey {l : List (String × ThemeMode)} (k : String) (m : ThemeMode)
    (h : (l.map Prod.fst).Nodup) : ((setKey l k m).map Prod.fst).Nodup := by
  rw [keys_setKey]
  by_cases h2 : k ∈ l.map Prod.fst
  · simpa [h2] using h
  · simp only [if_neg h2]
    simp [List.nodup_append, h, h2]

lemma nodup_keys_buildOverrides (entries : List (String × JsValue)) :
    ∀ acc : List (String × ThemeMode), (acc.map Prod.fst).Nodup →
      ((buildOverrides entries acc).map Prod.fst).Nodup := by
  induction entries with
  | nil => intro acc h; exact h
  | cons e rest ih =>
    obtain ⟨k0, v0⟩ := e
    intro acc h
    cases hv : toThemeMode v0 with
    | some m0 => simpa [buildOverrides, hv] using ih _ (nodup_keys_setKey k0 m0 h)
    | none => simpa [buildOverrides, hv] using ih _ h

lemma buildOverrides_map_modeJs (l : List (String × ThemeMode)) :
    ∀ acc : List (String × ThemeMode),
      ((acc.map Prod.fst ++ l.map Prod.fst)).Nodup →
      buildOverrides (l.map (fun p => (p.1, modeJs p.2))) acc = acc ++ l := by
  induction l with
  | nil => intro acc _; simp [buildOverrides]
  | cons p rest ih =>
    obtain ⟨k0, m0⟩ := p
    intro acc h
    have hk0 : k0 ∉ acc.map Prod.fst := by
      have hd := (List.nodup_append.mp h).2.2
      intro hx
      exact hd hx (by simp)
    have hstep : setKey acc k0 m0 = acc ++ [(k0, m0)] := setKey_absent m0 hk0
    have hre : ((acc ++ [(k0, m0)]).map Prod.fst ++ rest.map Prod.fst).Nodup := by
      simp only [List.map_append, List.map_cons, List.map_nil, List.append_assoc,
        List.singleton_append]
      simpa using h
    calc buildOverrides (((k0, m0) :: rest).map (fun p => (p.1, modeJs p.2))) acc
        = buildOverrides (rest.map (fun p => (p.1, modeJs p.2))) (setKey acc k0 m0) := by
          simp [buildOverrides, toThemeMode_modeJs]
      _ = (acc ++ [(k0, m0)]) ++ rest := by rw [hstep]; exact ih _ hre
      _ = acc ++ ((k0, m0) :: rest) := by simp

lemma recGet_buildOverrides (entries : List (String × JsValue)) :
    ∀ (acc : List (String × ThemeMode)) (k : String) (m : ThemeMode),
      (entries.map Prod.fst).Nodup →
      (recGet (buildOverrides entries acc) k = some m ↔
        ((k, modeJs m) ∈ entries ∨
          ((∀ m' : ThemeMode, (k, modeJs m') ∉ entries) ∧ recGet acc k = some m))) := by
  induction entries with
  | nil =>
    intro acc k m _
    simp [buildOverrides]
  | cons e rest ih =>
    obtain ⟨k0, v0⟩ := e
    intro acc k m hnd
    have hnd' : (rest.map Prod.fst).Nodup := (List.nodup_cons.mp hnd).2
    have hk0 : k0 ∉ rest.map Prod.fst := (List.nodup_cons.mp hnd).1
    cases hv : toThemeMode v0 with
    | some m0 =>
      have hv0 : v0 = modeJs m0 := toThemeMode_eq_some hv
      subst hv0
      have hstep : buildOverrides ((k0, modeJs m0) :: rest) acc =
          buildOverrides rest (setKey acc k0 m0) := by
        simp [buildOverrides, hv]
      rw [hstep, ih (setKey acc k0 m0) k m hnd']
      by_cases hk : k = k0
      · subst hk
        have hnr : ∀ m' : ThemeMode, (k, modeJs m') ∉ rest := by
          intro m' hm
          exact hk0 (List.mem_map_of_mem Prod.fst hm)
        constructor
        · rintro (hmem | ⟨-, hacc⟩)
          · exact absurd hmem (hnr m)
          · rw [recGet_setKey_self] at hacc
            injection hacc with h4
            subst h4
            exact Or.inl (List.mem_cons_self _ _)
        · rintro (hmem | ⟨hno, -⟩)
          · rcases List.mem_cons.mp hmem with heq | hmem2
            · obtain ⟨-, h2⟩ := Prod.mk.injEq .. ▸ heq
              have h3 := modeJs_inj (congrArg id h2)
              refine Or.inr ⟨hnr, ?_⟩
              rw [recGet_setKey_self, h3]
            · exact absurd hmem2 (hnr m)
          · exact absurd (List.mem_cons_self _ _) (hno m0)
      · have hne : recGet (setKey acc k0 m0) k = recGet acc k := recGet_setKey_ne acc m0 hk
        rw [hne]
        constructor
        · rintro (hmem | ⟨hno, hacc⟩)
          · exact Or.inl (List.mem_cons_of_mem _ hmem)
          · refine Or.inr ⟨?_, hacc⟩
            intro m' hm
            rcases List.mem_cons.mp hm with heq | hmem2
            · exact hk (congrArg Prod.fst heq)
            · exact hno m' hmem2
        · rintro (hmem | ⟨hno, hacc⟩)
          · rcases List.mem_cons.mp hmem with heq | hmem2
            · exact absurd (congrArg Prod.fst heq) hk
            · exact Or.inl hmem2
          · exact Or.inr ⟨fun m' hm => hno m' (List.mem_cons_of_mem _ hm), hacc⟩
    | none =>
      have hstep : buildOverrides ((k0, v0) :: rest) acc = buildOverrides rest acc := by
        simp [buildOverrides, hv]
      rw [hstep, ih acc k m hnd']
      have hhead : ∀ m' : ThemeMode, (k, modeJs m') ≠ (k0, v0) := by
        intro m' he
        have h2 : modeJs m' = v0 := congrArg Prod.snd he
        rw [← h2, toThemeMode_modeJs] at hv
        exact Option.noConfusion hv
      constructor
      · rintro (hmem | ⟨hno, hacc⟩)
        · exact Or.inl (List.mem_cons_of_mem _ hmem)
        · refine Or.inr ⟨?_, hacc⟩
          intro m' hm
          rcases List.mem_cons.mp hm with heq | hmem2
          · exact hhead m' heq
          · exact hno m' hmem2
      · rintro (hmem | ⟨hno, hacc⟩)
        · rcases List.mem_cons.mp hmem with heq | hmem2
          · exact absurd heq (hhead m)
          · exact Or.inl hmem2
        · exact Or.inr ⟨fun m' hm => hno m' (List.mem_cons_of_mem _ hm), hacc⟩

lemma normalizeSettings_record {v : JsValue} (h : isRecord v = true) :
    normalizeSettings v =
      ⟨(toThemeMode (getProp v "defaultMode")).getD ThemeMode.system,
        if isRecord (getProp v "siteOverrides") then
          buildOverrides (entriesOf (getProp v "siteOverrides")) []
        else []⟩ := by
  unfold normalizeSettings
  rw [if_pos h]
  cases htm : toThemeMode (getProp v "defaultMode") with
  | some m => simp only [htm, Option.getD]
  | none => simp only [htm, Option.getD, defaultSettings]

lemma normalizeSettings_not_record {v : JsValue} (h : isRecord v = false) :
    normalizeSettings v = defaultSettings := by
  unfold normalizeSettings
  rw [if_neg]
  simp [h]

lemma nodup_keys_normalizeSettings (v : JsValue) :
    (((normalizeSettings v).siteOverrides).map Prod.fst).Nodup := by
  cases h : isRecord v with
  | true =>
    rw [normalizeSettings_record h]
    by_cases h2 : isRecord (getProp v "siteOverrides")
    · simp only [if_pos h2]
      exact nodup_keys_buildOverrides _ [] (by simp)
    · simp [h2]
  | false =>
    rw [normalizeSettings_not_record h]
    simp [defaultSettings]

lemma normalizeSettings_toJs (s : ThemeSettings)
    (h : (s.siteOverrides.map Prod.fst).Nodup) : normalizeSettings (toJs s) = s := by
  obtain ⟨dm, so⟩ := s
  have hmain : buildOverrides (so.map (fun p => (p.1, modeJs p.2))) [] = so := by
    have h2 := buildOverrides_map_modeJs so [] (by simpa using h)
    simpa using h2
  cases dm
  · show ThemeSettings.mk ThemeMode.light
      (buildOverrides (so.map (fun p => (p.1, modeJs p.2))) []) = _
    rw [hmain]
  · show ThemeSettings.mk ThemeMode.dark
      (buildOverrides (so.map (fun p => (p.1, modeJs p.2))) []) = _
    rw [hmain]
  · show ThemeSettings.mk ThemeMode.system
      (buildOverrides (so.map (fun p => (p.1, modeJs p.2))) []) = _
    rw [hmain]

lemma validSettings_normalizeSettings (v : JsValue) :
    validSettings (normalizeSettings v) = true := by
  simp only [validSettings, isThemeMode_modeJs, Bool.true_and, List.all_eq_true]
  intro p _
  trivial

/-! ### Claim theorems -/

/-- Claim C2: `normalizeSettings` returns the default settings when the input
is not an object; otherwise it keeps a valid `defaultMode` (else substitutes
`system`) and copies exactly the `siteOverrides` entries whose value is a
valid mode (any string key accepted), the empty mapping when the field is
absent or not an object. -/
theorem normalizeSettings_characterization :
    ∀ v : JsValue,
      (isRecord v = false → normalizeSettings v = defaultSettings) ∧
      (isRecord v = true →
        ((∀ m : ThemeMode, getProp v "defaultMode" = modeJs m →
            (normalizeSettings v).defaultMode = m) ∧
         (toThemeMode (getProp v "defaultMode") = none →
            (normalizeSettings v).defaultMode = ThemeMode.system) ∧
         (isRecord (getProp v "siteOverrides") = false →
            (normalizeSettings v).siteOverrides = []) ∧
         (((entriesOf (getProp v "siteOverrides")).map Prod.fst).Nodup →
           ∀ (k : String) (m : ThemeMode),
             recGet (normalizeSettings v).siteOverrides k = some m ↔
               (k, modeJs m) ∈ entriesOf (getProp v "siteOverrides")))) := by
  intro v
  constructor
  · exact normalizeSettings_not_record
  · intro hrec
    rw [normalizeSettings_record hrec]
    refine ⟨?_, ?_, ?_, ?_⟩
    · intro m hm
      simp [hm, toThemeMode_modeJs]
    · intro hm
      simp [hm]
    · intro hso
      simp [hso]
    · intro hnd k m
      by_cases hso : isRecord (getProp v "siteOverrides") = true
      · simp only [if_pos hso]
        rw [recGet_buildOverrides _ [] k m hnd]
        simp [recGet]
      · rw [Bool.not_eq_true] at hso
        have he : entriesOf (getProp v "siteOverrides") = [] := by
          cases hv : getProp v "siteOverrides" <;> simp [entriesOf] <;> simp [hv, isRecord] at hso
        simp [hso, he, recGet]

/-- A concrete mixed raw settings value: valid default, one valid override,
one entry with an invalid mode value. -/
def sampleRaw : JsValue :=
  JsValue.obj
    [("defaultMode", JsValue.str "dark"),
     ("siteOverrides", JsValue.obj
        [("a.example", JsValue.str "light"), ("b.example", JsValue.num 3)])]

/-- Witness for C2 at a concrete malformed input and at `sampleRaw`. -/
theorem normalizeSettings_characterization_witness :
    (normalizeSettings (JsValue.str "oops") = defaultSettings) ∧
    ((normalizeSettings sampleRaw).defaultMode = ThemeMode.dark) ∧
    (recGet (normalizeSettings sampleRaw).siteOverrides "a.example" =
      some ThemeMode.light) := by
  refine ⟨(normalizeSettings_characterization (JsValue.str "oops")).1 rfl, ?_, ?_⟩
  · exact ((normalizeSettings_characterization sampleRaw).2 rfl).1 ThemeMode.dark rfl
  · exact (((normalizeSettings_characterization sampleRaw).2 rfl).2.2.2 (by decide) "a.example"
      ThemeMode.light).mpr (List.Mem.head _)

/-- Claim C3: `normalizeSettings` is idempotent and its result always
satisfies the `ThemeSettings` invariant. -/
theorem normalizeSettings_idempotent_valid :
    ∀ v : JsValue,
      normalizeSettings (toJs (normalizeSettings v)) = normalizeSettings v ∧
      validSettings (normalizeSettings v) = true :=
  fun v =>
    ⟨normalizeSettings_toJs _ (nodup_keys_normalizeSettings v),
     validSettings_normalizeSettings v⟩

/-- Claim C1: `shouldInvert` is true exactly when the target scheme is dark
and the page is not dark, or the target scheme is light and the page is
dark; equivalently it realises the stated 2x2 truth table. -/
theorem shouldInvert_truth_table :
    (∀ (s : ThemeScheme) (p : Bool),
      shouldInvert s p = true ↔
        ((s = ThemeScheme.dark ∧ p = false) ∨ (s = ThemeScheme.light ∧ p = true))) ∧
    shouldInvert ThemeScheme.dark false = true ∧
    shouldInvert ThemeScheme.dark true = false ∧
    shouldInvert ThemeScheme.light true = true ∧
    shouldInvert ThemeScheme.light false = false := by
  refine ⟨?_, rfl, rfl, rfl, rfl⟩
  intro s p
  cases s <;> cases p <;> simp [shouldInvert]

/-- Claim C6: for RGB triples with channels in 0..255, `relativeLuminance`
is monotone non-decreasing in each channel independently; it is 0 at black
and 1 at white. -/
theorem relativeLuminance_monotone_bounds :
    (∀ r r2 g b : ℕ, r ≤ 255 → r2 ≤ 255 → g ≤ 255 → b ≤ 255 → r ≤ r2 →
      relativeLuminance ⟨r, g, b, some 1⟩ ≤ relativeLuminance ⟨r2, g, b, some 1⟩) ∧
    (∀ r g g2 b : ℕ, r ≤ 255 → g ≤ 255 → g2 ≤ 255 → b ≤ 255 → g ≤ g2 →
      relativeLuminance ⟨r, g, b, some 1⟩ ≤ relativeLuminance ⟨r, g2, b, some 1⟩) ∧
    (∀ r g b b2 : ℕ, r ≤ 255 → g ≤ 255 → b ≤ 255 → b2 ≤ 255 → b ≤ b2 →
      relativeLuminance ⟨r, g, b, some 1⟩ ≤ relativeLuminance ⟨r, g, b2, some 1⟩) ∧
    relativeLuminance ⟨0, 0, 0, some 1⟩ = 0 ∧
    relativeLuminance ⟨255, 255, 255, some 1⟩ = 1 := by
  refine ⟨?_, ?_, ?_, lum_black, lum_white⟩
  · intro r r2 g b _ _ _ _ hr
    have h := lumChannel_mono hr
    show 0.2126 * lumChannel r + 0.7152 * lumChannel g + 0.0722 * lumChannel b ≤
      0.2126 * lumChannel r2 + 0.7152 * lumChannel g + 0.0722 * lumChannel b
    linarith
  · intro r g g2 b _ _ _ _ hg
    have h := lumChannel_mono hg
    show 0.2126 * lumChannel r + 0.7152 * lumChannel g + 0.0722 * lumChannel b ≤
      0.2126 * lumChannel r + 0.7152 * lumChannel g2 + 0.0722 * lumChannel b
    linarith
  · intro r g b b2 _ _ _ _ hb
    have h := lumChannel_mono hb
    show 0.2126 * lumChannel r + 0.7152 * lumChannel g + 0.0722 * lumChannel b ≤
      0.2126 * lumChannel r + 0.7152 * lumChannel g + 0.0722 * lumChannel b2
    linarith

/-- Witness for C6: the monotonicity parts at concrete channel values
spanning the linear/power branch boundary. -/
theorem relativeLuminance_monotone_bounds_witness :
    relativeLuminance ⟨10, 20, 30, some 1⟩ ≤ relativeLuminance ⟨11, 20, 30, some 1⟩ ∧
    relativeLuminance ⟨10, 20, 30, some 1⟩ ≤ relativeLuminance ⟨10, 255, 30, some 1⟩ ∧
    relativeLuminance ⟨10, 20, 30, some 1⟩ ≤ relativeLuminance ⟨10, 20, 31, some 1⟩ :=
  ⟨relativeLuminance_monotone_bounds.1 10 11 20 30 (by decide) (by decide) (by decide)
      (by decide) (by decide),
   relativeLuminance_monotone_bounds.2.1 10 20 255 30 (by decide) (by decide) (by decide)
      (by decide) (by decide),
   relativeLuminance_monotone_bounds.2.2.1 10 20 30 31 (by decide) (by decide) (by decide)
      (by decide) (by decide)⟩

/-- Claim C9: `parseColor` does no range validation — "rgb(300,300,300)"
parses to channels 300 exceeding 255, and `relativeLuminance` of that color
exceeds 1, so the 0..1 luminance bounds hold only for channels in 0..255. -/
theorem parseColor_no_range_validation :
    parseColor "rgb(300,300,300)" = some ⟨300, 300, 300, some 1⟩ ∧
    255 < (300 : ℕ) ∧
    1 < relativeLuminance ⟨300, 300, 300, some 1⟩ := by
  refine ⟨by decide, by decide, ?_⟩
  have h : 1 < lumChannel 300 := by
    rw [lumChannel_pow (by norm_num)]
    rw [Real.one_lt_rpow_iff_of_pos (by norm_num)]
    left
    constructor <;> norm_num
  show (1 : ℝ) < 0.2126 * lumChannel 300 + 0.7152 * lumChannel 300 + 0.0722 * lumChannel 300
  linarith

/-- Claim C8: the managed stylesheet stays a singleton across any sequence
of `applyTheme`/`clearTheme` operations, and re-applying the same
{scheme, invert} pair leaves the DOM state unchanged. -/
theorem applyTheme_idempotent_singleton :
    (∀ (ops : List DomOp) (d : Dom), d.styleCount ≤ 1 → (runOps ops d).styleCount ≤ 1) ∧
    (∀ (s : ThemeScheme) (i : Bool) (d : Dom),
      applyTheme s i (applyTheme s i d) = applyTheme s i d) := by
  constructor
  · intro ops
    induction ops with
    | nil => intro d h; exact h
    | cons op rest ih =>
      intro d h
      refine ih (stepOp op d) ?_
      cases op with
      | applyOp s i =>
        show (applyTheme s i d).styleCount ≤ 1
        unfold applyTheme ensureStyleElement
        by_cases h0 : d.styleCount = 0
        · simp [h0]
        · simp only [if_neg h0]
          exact h
      | clearOp =>
        show (clearTheme d).styleCount ≤ 1
        unfold clearTheme
        simp only
        omega
  · intro s i d
    unfold applyTheme ensureStyleElement
    by_cases h0 : d.styleCount = 0 <;> simp [h0]

/-- Witness for C8 at a concrete operation sequence and a fresh document. -/
theorem applyTheme_idempotent_singleton_witness :
    (runOps [DomOp.applyOp ThemeScheme.dark true, DomOp.applyOp ThemeScheme.dark true,
        DomOp.clearOp, DomOp.applyOp ThemeScheme.light false]
      ⟨none, none, 0⟩).styleCount ≤ 1 ∧
    applyTheme ThemeScheme.dark true (applyTheme ThemeScheme.dark true ⟨none, none, 0⟩) =
      applyTheme ThemeScheme.dark true ⟨none, none, 0⟩ :=
  ⟨applyTheme_idempotent_singleton.1 _ ⟨none, none, 0⟩ (by decide),
   applyTheme_idempotent_singleton.2 ThemeScheme.dark true ⟨none, none, 0⟩⟩

/-- Claim C10: `setMode` with an active host writes the mode both as the
global default and as that host's override, leaving every other override
unchanged; with no active host it changes only the default. -/
theorem setMode_frame :
    ∀ (settings : ThemeSettings) (host : String) (mode : ThemeMode),
      ((setMode settings (some host) mode).defaultMode = mode ∧
       recGet (setMode settings (some host) mode).siteOverrides host = some mode ∧
       (∀ k : String, k ≠ host →
         recGet (setMode settings (some host) mode).siteOverrides k =
           recGet settings.siteOverrides k)) ∧
      ((setMode settings none mode).defaultMode = mode ∧
       (setMode settings none mode).siteOverrides = settings.siteOverrides) := by
  intro settings host mode
  refine ⟨⟨rfl, ?_, ?_⟩, rfl, rfl⟩
  · exact recGet_setKey_self settings.siteOverrides host mode
  · intro k hk
    exact recGet_setKey_ne settings.siteOverrides mode hk

/-- Witness for C10: the frame condition at a concrete non-active host. -/
theorem setMode_frame_witness :
    recGet (setMode ⟨ThemeMode.system, [("x.example", ThemeMode.light)]⟩ (some "a.example")
        ThemeMode.dark).siteOverrides "x.example" =
      recGet [("x.example", ThemeMode.light)] "x.example" :=
  (setMode_frame ⟨ThemeMode.system, [("x.example", ThemeMode.light)]⟩ "a.example"
      ThemeMode.dark).1.2.2 "x.example" (by decide)

/-- Claim C7: a resolution pass with an empty hostname, or a hostname with
no `siteOverrides` entry, forces Inactive: both managed attributes are
removed and the managed stylesheet is removed if present, whatever the
previous DOM state. -/
theorem inactive_forced_on_missing_override :
    ∀ (env : Env) (baseline : Option Bool) (settings : ThemeSettings) (d : Dom),
      (effHostname env = "" ∨ recGet settings.siteOverrides (effHostname env) = none) →
      applyThemeFromSettings env baseline settings d = clearTheme d ∧
      (clearTheme d).schemeAttr = none ∧
      (clearTheme d).invertAttr = none ∧
      (clearTheme d).styleCount = d.styleCount - 1 := by
  intro env baseline settings d h
  refine ⟨?_, rfl, rfl, rfl⟩
  unfold applyThemeFromSettings
  rcases h with h | h
  · rw [if_pos h]
  · by_cases he : effHostname env = ""
    · rw [if_pos he]
    · rw [if_neg he]
      simp only [h]

/-- Witness for C7: a previously themed DOM cleared because the host has no
override. -/
theorem inactive_forced_on_missing_override_witness :
    applyThemeFromSettings ⟨"nohost.example", "", false, none, ""⟩ none
        ⟨ThemeMode.dark, [("other.example", ThemeMode.dark)]⟩
        ⟨some "dark", some "true", 1⟩ =
      clearTheme ⟨some "dark", some "true", 1⟩ ∧
    (clearTheme (⟨some "dark", some "true", 1⟩ : Dom)).schemeAttr = none ∧
    (clearTheme (⟨some "dark", some "true", 1⟩ : Dom)).invertAttr = none ∧
    (clearTheme (⟨some "dark", some "true", 1⟩ : Dom)).styleCount =
      (⟨some "dark", some "true", 1⟩ : Dom).styleCount - 1 :=
  inactive_forced_on_missing_override ⟨"nohost.example", "", false, none, ""⟩ none
    ⟨ThemeMode.dark, [("other.example", ThemeMode.dark)]⟩ ⟨some "dark", some "true", 1⟩
    (Or.inr (by decide))

lemma alphaAbove_white : alphaAbove whiteRgb = true := by
  simp only [whiteRgb, alphaAbove]
  rw [decide_eq_true_eq]
  norm_num

lemma getReadableBackground_white :
    getReadableBackground (some "rgb(255, 255, 255)") "" = some whiteRgb := by
  show (match parseColor "rgb(255, 255, 255)" with
    | some c => if alphaAbove c then some c else readRootColor ""
    | none => readRootColor "") = some whiteRgb
  rw [show parseColor "rgb(255, 255, 255)" = some whiteRgb from rfl]
  simp [alphaAbove_white]

lemma computePageIsDark_white :
    computePageIsDark (some "rgb(255, 255, 255)") "" = false := by
  unfold computePageIsDark
  rw [getReadableBackground_white]
  simp only [Option.getD]
  apply decide_eq_false
  rw [lum_white]
  norm_num

/-- Claim C4: `resolveScheme` sends `system` to the OS preference and the
concrete modes to themselves; in the spec scenario (override dark for the
current host, OS prefers light, white page) the resolved scheme is dark and
invert is true. -/
theorem resolveScheme_mapping_scenario :
    (∀ p : Bool,
      resolveScheme p ThemeMode.system =
        (if p then ThemeScheme.dark else ThemeScheme.light) ∧
      resolveScheme p ThemeMode.light = ThemeScheme.light ∧
      resolveScheme p ThemeMode.dark = ThemeScheme.dark) ∧
    (∀ d : Dom,
      applyThemeFromSettings ⟨"example.com", "", false, some "rgb(255, 255, 255)", ""⟩ none
          ⟨ThemeMode.system, [("example.com", ThemeMode.dark)]⟩ d =
        applyTheme ThemeScheme.dark true d) := by
  constructor
  · intro p
    exact ⟨rfl, rfl, rfl⟩
  · intro d
    have hs : applyThemeFromSettings ⟨"example.com", "", false, some "rgb(255, 255, 255)", ""⟩
        none ⟨ThemeMode.system, [("example.com", ThemeMode.dark)]⟩ d =
        applyTheme ThemeScheme.dark
          (shouldInvert ThemeScheme.dark (computePageIsDark (some "rgb(255, 255, 255)") "")) d :=
      rfl
    rw [hs, computePageIsDark_white]
    rfl

lemma chosen_background_eq (bodyBg : Option String) (rootBg : String) :
    (getReadableBackground bodyBg rootBg).getD whiteRgb =
      specChosenBackground bodyBg rootBg := by
  unfold getReadableBackground specChosenBackground readRootColor
  cases bodyBg with
  | none =>
    dsimp only
    cases parseColor rootBg with
    | none => rfl
    | some rc =>
      by_cases h : alphaAbove rc <;> simp [h]
  | some s =>
    dsimp only
    cases parseColor s with
    | none =>
      cases parseColor rootBg with
      | none => rfl
      | some rc =>
        by_cases h : alphaAbove rc <;> simp [h]
    | some c =>
      by_cases h : alphaAbove c
      · simp [h]
      · cases parseColor rootBg with
        | none => simp [h]
        | some rc =>
          by_cases h2 : alphaAbove rc <;> simp [h, h2]

/-- Claim C5: `computePageIsDark` declares the page dark exactly when the
background the fallback chain chooses (body color if it parses with alpha
above 0.05, else root color under the same condition, else assumed white)
has relative luminance below 0.5; unparseable strings such as named colors
or hsl() are no signal. -/
theorem computePageIsDark_fallback_chain :
    (∀ (bodyBg : Option String) (rootBg : String),
      computePageIsDark bodyBg rootBg = true ↔
        relativeLuminance (specChosenBackground bodyBg rootBg) < 0.5) ∧
    parseColor "white" = none ∧
    parseColor "hsl(0, 0%, 100%)" = none := by
  refine ⟨?_, by decide, by decide⟩
  intro bodyBg rootBg
  show decide (relativeLuminance ((getReadableBackground bodyBg rootBg).getD whiteRgb) < 0.5)
      = true ↔ _
  constructor
  · intro h
    have h2 := of_decide_eq_true h
    rwa [chosen_background_eq] at h2
  · intro h
    exact decide_eq_true (by rwa [← chosen_background_eq] at h)
